import Mathlib

/-!
Shallow embedding of `src/src/number.rs` (the serde-yaml `Number` scalar type):
the internal representation `N`, the classification predicates, the extraction
and construction APIs, the Display rendering, the structural equality derived
by `#[derive(PartialEq)]`, and the serialization bridge (the `Serialize` impl,
the `Deserialize` visitor, and the by-value / by-reference `Deserializer`
impls).

Machine integers are embedded as `Nat` (u64 payloads) and `Int` (i64
payloads); the 64-bit ranges appear as explicit hypotheses where a claim
quantifies over a native range.  IEEE-754 binary64 values are embedded
symbolically by the inductive `F64` below, which captures exactly the
observations the source makes of an `f64`: NaN-ness, infiniteness, the sign
bit of an infinity, IEEE equality, and the exact value of a finite float.
-/

/-- Model of an IEEE-754 binary64 value as observed by `number.rs`:
a finite value (represented by its exact rational value), an infinity
carrying its sign bit, or NaN.  The sign bit of a finite value other than
through `q < 0`, and the sign bit of a NaN, are never observed by the source
(`is_sign_negative` is only called on values already known infinite), so
negative zero and signed NaNs are not distinguished by the model. -/
inductive F64 where
  | finite (q : ℚ)
  | inf (negSign : Bool)
  | nan
deriving DecidableEq, Repr

/-- Model of `f64::is_nan` (Rust std). -/
def F64.is_nan : F64 → Bool
  | .nan => true
  | _ => false

/-- Model of `f64::is_infinite` (Rust std). -/
def F64.is_infinite : F64 → Bool
  | .inf _ => true
  | _ => false

/-- Model of `f64::is_finite` (Rust std). -/
def F64.is_finite : F64 → Bool
  | .finite _ => true
  | _ => false

/-- Model of `f64::is_sign_negative` (Rust std): the IEEE sign bit.  The
source only calls this on infinite values, where the model carries the sign
bit exactly; on finite values the model returns the sign of the value. -/
def F64.is_sign_negative : F64 → Bool
  | .inf s => s
  | .finite q => decide (q < 0)
  | .nan => false

/-- Model of IEEE-754 `==` on f64 (Rust's `PartialEq for f64`): NaN compares
unequal to everything including itself; infinities compare equal iff their
signs agree; finite values compare by numeric value. -/
def F64.ieee_eq : F64 → F64 → Bool
  | .finite q, .finite r => decide (q = r)
  | .inf s, .inf t => s == t
  | _, _ => false

/-- The enum `N` of `number.rs` lines 26-33: `PosInt(u64)` (payload embedded
as `Nat`), `NegInt(i64)` (payload embedded as `Int`; documented always less
than zero), `Float(f64)` (may be infinite or NaN). -/
inductive N where
  | PosInt (v : Nat)
  | NegInt (v : Int)
  | Float (v : F64)
deriving DecidableEq, Repr

/-- The struct `Number` of `number.rs` lines 18-21, wrapping an `N`. -/
structure Number where
  n : N
deriving DecidableEq, Repr

/-- The value `i64::max_value() as u64` used in `Number::is_i64`. -/
def I64_MAX_AS_U64 : Nat := 2 ^ 63 - 1

/-- `Number::is_i64` (`number.rs` lines 68-74). -/
def Number.is_i64 (num : Number) : Bool :=
  match num.n with
  | .PosInt v => decide (v ≤ I64_MAX_AS_U64)
  | .NegInt _ => true
  | .Float _ => false

/-- `Number::is_u64` (`number.rs` lines 103-108). -/
def Number.is_u64 (num : Number) : Bool :=
  match num.n with
  | .PosInt _ => true
  | .NegInt _ | .Float _ => false

/-- `Number::is_f64` (`number.rs` lines 139-144). -/
def Number.is_f64 (num : Number) : Bool :=
  match num.n with
  | .Float _ => true
  | .PosInt _ | .NegInt _ => false

/-- `Number::is_nan` (`number.rs` lines 263-268). -/
def Number.is_nan (num : Number) : Bool :=
  match num.n with
  | .PosInt _ | .NegInt _ => false
  | .Float f => f.is_nan

/-- `Number::is_infinite` (`number.rs` lines 289-294). -/
def Number.is_infinite (num : Number) : Bool :=
  match num.n with
  | .PosInt _ | .NegInt _ => false
  | .Float f => f.is_infinite

/-- `Number::is_finite` (`number.rs` lines 314-319). -/
def Number.is_finite (num : Number) : Bool :=
  match num.n with
  | .PosInt _ | .NegInt _ => true
  | .Float f => f.is_finite

/-- Model of `<i64 as NumCast>::from(n : u64)` (num_traits): the checked
cast succeeds exactly when the value fits in the signed 64-bit range. -/
def numcast_u64_to_i64 (v : Nat) : Option Int :=
  if v ≤ I64_MAX_AS_U64 then some (v : Int) else none

/-- Model of `<f64 as NumCast>::from(n : u64)` (num_traits `ToPrimitive`):
always succeeds, returning `n as f64`.  The rounding performed by the cast
above 2 to the 53 is abstracted to the exact value; no claim settled here
observes the rounded value, only that the cast succeeds. -/
def numcast_u64_to_f64 (v : Nat) : Option F64 :=
  some (.finite (v : ℚ))

/-- Model of `<f64 as NumCast>::from(n : i64)` (num_traits `ToPrimitive`):
always succeeds, returning `n as f64`; rounding abstracted as above. -/
def numcast_i64_to_f64 (v : Int) : Option F64 :=
  some (.finite (v : ℚ))

/-- `Number::as_i64` (`number.rs` lines 171-177). -/
def Number.as_i64 (num : Number) : Option Int :=
  match num.n with
  | .PosInt v => numcast_u64_to_i64 v
  | .NegInt v => some v
  | .Float _ => none

/-- `Number::as_u64` (`number.rs` lines 201-206). -/
def Number.as_u64 (num : Number) : Option Nat :=
  match num.n with
  | .PosInt v => some v
  | .NegInt _ | .Float _ => none

/-- `Number::as_f64` (`number.rs` lines 237-243). -/
def Number.as_f64 (num : Number) : Option F64 :=
  match num.n with
  | .PosInt v => numcast_u64_to_f64 v
  | .NegInt v => numcast_i64_to_f64 v
  | .Float f => some f

/-- Body of the `from_signed!` macro (`number.rs` lines 439-455), which is
instantiated at each of i8, i16, i32, i64, isize.  The widening casts
`i as i64` (on the negative branch) and `i as u64` (on the non-negative
branch) are value-preserving on every value of every source type, so the
parameter is the widened value: an `Int` in the source type's range. -/
def Number.from_signed (i : Int) : Number :=
  if i < 0 then ⟨.NegInt i⟩ else ⟨.PosInt i.toNat⟩

/-- Body of the `from_unsigned!` macro (`number.rs` lines 457-468),
instantiated at u8, u16, u32, u64, usize; the widening cast `u as u64` is
value-preserving, so the parameter is the widened value. -/
def Number.from_unsigned (u : Nat) : Number :=
  ⟨.PosInt u⟩

/-- Body of the `from_float!` macro (`number.rs` lines 470-481),
instantiated at f32 and f64; the widening cast `f as f64` is exact on every
f32 value (including NaN and the infinities), so the parameter is the
widened value. -/
def Number.from_float (f : F64) : Number :=
  ⟨.Float f⟩

/-- Structural equality on `N` generated by `#[derive(PartialEq)]`
(`number.rs` line 26): same variant, payloads compared by the payload
type's `PartialEq` — numeric equality for u64/i64, IEEE equality for f64. -/
def N.beq : N → N → Bool
  | .PosInt a, .PosInt b => decide (a = b)
  | .NegInt a, .NegInt b => decide (a = b)
  | .Float x, .Float y => x.ieee_eq y
  | _, _ => false

/-- Equality on `Number` generated by `#[derive(PartialEq)]`
(`number.rs` line 18): field-wise, i.e. equality of the wrapped `N`. -/
def Number.beq (a b : Number) : Bool :=
  N.beq a.n b.n

/-- The character for the decimal digit d (0-9). -/
def digitChar (d : Nat) : Char :=
  Char.ofNat (48 + d)

/-- Model of Rust std's `Display for u64`: the base-10 digits of the value,
most significant first, with no leading zeros, and `"0"` for zero. -/
def renderNat (v : Nat) : List Char :=
  if v = 0 then ['0'] else ((Nat.digits 10 v).reverse).map digitChar

/-- Model of Rust std's `Display for i64`: a leading minus sign exactly for
negative values, followed by the base-10 digits of the absolute value. -/
def renderInt (v : Int) : List Char :=
  if v < 0 then '-' :: renderNat v.natAbs else renderNat v.toNat

/-- Model of Rust std's `Display for f64` on a finite value, the host
float-rendering convention invoked by the final match arm of the source's
Display impl (`number.rs` line 335): Rust prints the shortest decimal string
that parses back to the same f64, and for a finite value that is exactly an
integer this string is the bare integer digits with no fractional marker
and no exponent (e.g. `format!` on 256.0 f64 yields the three characters
256).  Integral values are the only finite floats any claim settled here
displays; a non-integral finite value (whose shortest round-tripping form
depends on the IEEE bit pattern, which the symbolic model does not carry) is
rendered by an abstract placeholder arm never reached by these claims. -/
def renderFiniteF64 (q : ℚ) : List Char :=
  if q.den = 1 then renderInt q.num
  else renderInt q.num ++ '.' :: renderNat q.den

/-- The `fmt::Display` impl for `Number` (`number.rs` lines 322-338), as the
string (character list) it writes.  The source's guard chain on the Float
arm — `is_nan` first, then `is_infinite` with `is_sign_negative` choosing
the sign, then the fallthrough finite arm — is exactly the constructor case
split on the `F64` model. -/
def Number.display (num : Number) : List Char :=
  match num.n with
  | .PosInt i => renderNat i
  | .NegInt i => renderInt i
  | .Float .nan => ['.', 'n', 'a', 'n']
  | .Float (.inf s) => if s then ['-', '.', 'i', 'n', 'f'] else ['.', 'i', 'n', 'f']
  | .Float (.finite q) => renderFiniteF64 q

/-- Modelled from the spec: the crate-level error type `error::Error`
(its source file is not part of this excerpt).  The serialization-bridge
claims depend only on errors being values propagated unchanged, so it is
modelled as a wrapper around a message string. -/
structure Error where
  msg : List Char
deriving DecidableEq, Repr

/-- A generic `Serializer` as the source's `Serialize` impl uses it: the
three primitive value-emitting methods it can call.  `R` is the
serializer's `Ok`-or-`Err` outcome type. -/
structure Serializer (R : Type) where
  serialize_u64 : Nat → R
  serialize_i64 : Int → R
  serialize_f64 : F64 → R

/-- The `Serialize` impl for `Number` (`number.rs` lines 346-358): dispatch
on the active variant to the matching primitive method of the serializer,
returning its result. -/
def Number.serialize {R : Type} (num : Number) (s : Serializer R) : R :=
  match num.n with
  | .PosInt i => s.serialize_u64 i
  | .NegInt i => s.serialize_i64 i
  | .Float f => s.serialize_f64 f

/-- A record of which single primitive method of a serializer was invoked,
with its payload. -/
inductive SerializerCall where
  | serialize_u64 (v : Nat)
  | serialize_i64 (v : Int)
  | serialize_f64 (v : F64)
deriving DecidableEq, Repr

/-- The instrumenting serializer: each primitive method returns the record
of its own invocation. -/
def recordingSerializer : Serializer SerializerCall :=
  ⟨.serialize_u64, .serialize_i64, .serialize_f64⟩

/-- Replays one recorded primitive call against a serializer. -/
def SerializerCall.replay {R : Type} (s : Serializer R) : SerializerCall → R
  | .serialize_u64 v => s.serialize_u64 v
  | .serialize_i64 v => s.serialize_i64 v
  | .serialize_f64 v => s.serialize_f64 v

/-- A generic `Visitor` as the source's `Deserializer` impls use it: the
three primitive visit methods, each returning the visitor's own
`Result<Value, Error>`. -/
structure Visitor (R : Type) where
  visit_u64 : Nat → Except Error R
  visit_i64 : Int → Except Error R
  visit_f64 : F64 → Except Error R

/-- `deserialize_any` of the by-value `impl Deserializer for Number`
(`number.rs` lines 399-408): dispatch on the active variant to the matching
visit method, returning its result. -/
def Number.deserialize_any {R : Type} (num : Number) (v : Visitor R) : Except Error R :=
  match num.n with
  | .PosInt i => v.visit_u64 i
  | .NegInt i => v.visit_i64 i
  | .Float f => v.visit_f64 f

/-- `deserialize_any` of the by-reference `impl Deserializer for &'a Number`
(`number.rs` lines 421-430); the receiver dereferences to the same `Number`
value. -/
def Number.deserialize_any_ref {R : Type} (num : Number) (v : Visitor R) : Except Error R :=
  match num.n with
  | .PosInt i => v.visit_u64 i
  | .NegInt i => v.visit_i64 i
  | .Float f => v.visit_f64 f

/-- A record of which single visit method of a visitor was invoked, with
its payload. -/
inductive VisitorCall where
  | visit_u64 (v : Nat)
  | visit_i64 (v : Int)
  | visit_f64 (v : F64)
deriving DecidableEq, Repr

/-- The instrumenting visitor: each visit method succeeds with the record
of its own invocation. -/
def recordingVisitor : Visitor VisitorCall :=
  ⟨fun v => .ok (.visit_u64 v), fun v => .ok (.visit_i64 v), fun v => .ok (.visit_f64 v)⟩

/-- Replays one recorded visit call against a visitor. -/
def VisitorCall.replay {R : Type} (v : Visitor R) : VisitorCall → Except Error R
  | .visit_u64 p => v.visit_u64 p
  | .visit_i64 p => v.visit_i64 p
  | .visit_f64 p => v.visit_f64 p

/-- The deserialize entry points other than `deserialize_any` that the
`forward_to_deserialize_any!` invocations (`number.rs` lines 410-414 and
432-436) generate for both `Deserializer` impls. -/
inductive ForwardedMethod where
  | bool | i8 | i16 | i32 | i64 | u8 | u16 | u32 | u64 | f32 | f64
  | char | str | string | bytes | byte_buf | option | unit | unit_struct
  | newtype_struct | seq | tuple | tuple_struct | map | struct_ | enum_
  | identifier | ignored_any
deriving DecidableEq, Repr

/-- The `forward_to_deserialize_any!` expansion for the by-value impl
(`number.rs` lines 410-414): each listed method's generated body is exactly
`self.deserialize_any(visitor)`, independent of which method was called. -/
def Number.deserialize_forwarded {R : Type} (_m : ForwardedMethod) (num : Number)
    (v : Visitor R) : Except Error R :=
  num.deserialize_any v

/-- The `forward_to_deserialize_any!` expansion for the by-reference impl
(`number.rs` lines 432-436): each listed method's generated body is exactly
`self.deserialize_any(visitor)` on the reference receiver. -/
def Number.deserialize_forwarded_ref {R : Type} (_m : ForwardedMethod) (num : Number)
    (v : Visitor R) : Except Error R :=
  num.deserialize_any_ref v

/-- `visit_i64` of the `NumberVisitor` in the `Deserialize` impl
(`number.rs` lines 376-378): `Ok(value.into())`, where `From<i64>` is the
`from_signed!` conversion. -/
def NumberVisitor.visit_i64 (value : Int) : Except Error Number :=
  .ok (Number.from_signed value)

/-- `visit_u64` of the `NumberVisitor` (`number.rs` lines 381-383):
`Ok(value.into())`, where `From<u64>` is the `from_unsigned!` conversion. -/
def NumberVisitor.visit_u64 (value : Nat) : Except Error Number :=
  .ok (Number.from_unsigned value)

/-- `visit_f64` of the `NumberVisitor` (`number.rs` lines 386-388):
`Ok(value.into())`, where `From<f64>` is the `from_float!` conversion. -/
def NumberVisitor.visit_f64 (value : F64) : Except Error Number :=
  .ok (Number.from_float value)

/-- Readback of a most-significant-first decimal character list as a
natural number. -/
def charsToNat (l : List Char) : Nat :=
  Nat.ofDigits 10 ((l.map fun c => c.toNat - 48).reverse)

lemma digitChar_toNat {d : Nat} (hd : d < 10) : (digitChar d).toNat = 48 + d := by
  interval_cases d <;> decide

lemma digitChar_isDigit {d : Nat} (hd : d < 10) : (digitChar d).isDigit = true := by
  interval_cases d <;> decide

lemma digitChar_ne_zero_char {d : Nat} (hd : d < 10) (h0 : d ≠ 0) : digitChar d ≠ '0' := by
  interval_cases d
  · exact absurd rfl h0
  all_goals decide

lemma renderNat_all_digits (v : Nat) : ∀ c ∈ renderNat v, c.isDigit = true := by
  intro c hc
  unfold renderNat at hc
  by_cases hv : v = 0
  · rw [if_pos hv] at hc
    simp only [List.mem_singleton] at hc
    subst hc
    decide
  · rw [if_neg hv] at hc
    simp only [List.mem_map, List.mem_reverse] at hc
    obtain ⟨d, hd, rfl⟩ := hc
    exact digitChar_isDigit (Nat.digits_lt_base (by norm_num) hd)

lemma renderNat_ne_nil (v : Nat) : renderNat v ≠ [] := by
  unfold renderNat
  by_cases hv : v = 0
  · rw [if_pos hv]
    decide
  · rw [if_neg hv]
    simp [hv, Nat.digits_ne_nil_iff_ne_zero]

lemma renderNat_head_ne_zero {v : Nat} (hv : v ≠ 0) :
    (renderNat v).head? ≠ some '0' := by
  unfold renderNat
  rw [if_neg hv]
  have hne : Nat.digits 10 v ≠ [] := Nat.digits_ne_nil_iff_ne_zero.mpr hv
  rw [List.head?_map, List.head?_reverse,
    List.getLast?_eq_getLast_of_ne_nil hne]
  intro hmem
  have h : digitChar ((Nat.digits 10 v).getLast hne) = '0' := by
    simpa using hmem
  have hlast : (Nat.digits 10 v).getLast hne ≠ 0 := Nat.getLast_digit_ne_zero 10 hv
  have hlt : (Nat.digits 10 v).getLast hne < 10 :=
    Nat.digits_lt_base (by norm_num) (List.getLast_mem hne)
  exact digitChar_ne_zero_char hlt hlast h

lemma charsToNat_renderNat (v : Nat) : charsToNat (renderNat v) = v := by
  unfold charsToNat renderNat
  by_cases hv : v = 0
  · simp [hv, Nat.ofDigits]
  · rw [if_neg hv, List.map_map, List.map_reverse, List.reverse_reverse]
    have hmap : (Nat.digits 10 v).map ((fun c => c.toNat - 48) ∘ digitChar)
        = Nat.digits 10 v := by
      conv_rhs => rw [show Nat.digits 10 v = (Nat.digits 10 v).map id from (List.map_id _).symm]
      apply List.map_congr_left
      intro d hd
      have hdlt : d < 10 := Nat.digits_lt_base (by norm_num) hd
      simp [Function.comp, digitChar_toNat hdlt]
    rw [hmap, Nat.ofDigits_digits]

/-- C1: for every Number, a true classification predicate guarantees the
matching extraction succeeds with the exact stored value: `is_i64` true
implies `as_i64` returns some of the stored integer (every NegInt payload,
and every PosInt payload at most i64 MAX), `is_u64` true implies `as_u64`
returns some of the stored u64 payload, and `is_f64` true implies `as_f64`
returns some of the stored f64 payload unchanged. -/
theorem is_predicates_guarantee_extraction (num : Number) :
    (∀ v : Nat, num.n = N.PosInt v → num.is_i64 = true → num.as_i64 = some (v : Int)) ∧
    (∀ v : Int, num.n = N.NegInt v → num.is_i64 = true ∧ num.as_i64 = some v) ∧
    (∀ v : Nat, num.n = N.PosInt v → num.is_u64 = true ∧ num.as_u64 = some v) ∧
    (∀ f : F64, num.n = N.Float f → num.is_f64 = true ∧ num.as_f64 = some f) := by
  obtain ⟨nn⟩ := num
  refine ⟨?_, ?_, ?_, ?_⟩
  · rintro v rfl h
    simp only [Number.is_i64, decide_eq_true_eq] at h
    simp [Number.as_i64, numcast_u64_to_i64, h]
  · rintro v rfl
    exact ⟨rfl, rfl⟩
  · rintro v rfl
    exact ⟨rfl, rfl⟩
  · rintro f rfl
    exact ⟨rfl, rfl⟩

/-- Witness for the classification-extraction contract at concrete inputs. -/
theorem is_predicates_guarantee_extraction_witness :
    (Number.mk (N.PosInt 64)).as_i64 = some 64 ∧
    (Number.mk (N.NegInt (-64))).as_i64 = some (-64) ∧
    (Number.mk (N.Float (F64.finite 256))).as_f64 = some (F64.finite 256) :=
  ⟨(is_predicates_guarantee_extraction ⟨N.PosInt 64⟩).1 64 rfl (by decide),
   ((is_predicates_guarantee_extraction ⟨N.NegInt (-64)⟩).2.1 (-64) rfl).2,
   ((is_predicates_guarantee_extraction ⟨N.Float (F64.finite 256)⟩).2.2.2
      (F64.finite 256) rfl).2⟩

/-- C2: construction from every native numeric type is total and
sign-routed: a signed integer value in the 64-bit range becomes NegInt
(widened, value preserved) when negative and PosInt (widened, value
preserved) otherwise; an unsigned value becomes PosInt; a float value
becomes Float holding the value unchanged, including NaN and both
infinities. -/
theorem from_native_sign_routing :
    (∀ i : Int, -(2 ^ 63) ≤ i → i < 2 ^ 63 →
      (i < 0 → Number.from_signed i = ⟨N.NegInt i⟩) ∧
      (0 ≤ i → Number.from_signed i = ⟨N.PosInt i.toNat⟩ ∧ (i.toNat : Int) = i)) ∧
    (∀ u : Nat, u < 2 ^ 64 → Number.from_unsigned u = ⟨N.PosInt u⟩) ∧
    (∀ f : F64, Number.from_float f = ⟨N.Float f⟩) ∧
    Number.from_float F64.nan = ⟨N.Float F64.nan⟩ ∧
    Number.from_float (F64.inf false) = ⟨N.Float (F64.inf false)⟩ ∧
    Number.from_float (F64.inf true) = ⟨N.Float (F64.inf true)⟩ := by
  refine ⟨?_, fun u _ => rfl, fun f => rfl, rfl, rfl, rfl⟩
  intro i _ _
  constructor
  · intro hneg
    simp [Number.from_signed, hneg]
  · intro hpos
    have : ¬ i < 0 := not_lt.mpr hpos
    simp [Number.from_signed, this, Int.toNat_of_nonneg hpos]

/-- Witness for sign-routed construction at concrete inputs. -/
theorem from_native_sign_routing_witness :
    Number.from_signed (-64) = ⟨N.NegInt (-64)⟩ ∧
    Number.from_signed 64 = ⟨N.PosInt 64⟩ ∧
    Number.from_unsigned 256 = ⟨N.PosInt 256⟩ :=
  ⟨(from_native_sign_routing.1 (-64) (by decide) (by decide)).1 (by decide),
   ((from_native_sign_routing.1 64 (by decide) (by decide)).2 (by decide)).1,
   from_native_sign_routing.2.1 256 (by decide)⟩

/-- C3: every Number produced by the public construction paths — the From
conversions from signed, unsigned and float values, and the deserialization
visitor methods, which route through them — has a strictly negative payload
whenever its active variant is NegInt; zero and positive values are never
stored in NegInt. -/
theorem negint_always_negative :
    (∀ i : Int, ∀ v : Int, (Number.from_signed i).n = N.NegInt v → v < 0) ∧
    (∀ u : Nat, ∀ v : Int, (Number.from_unsigned u).n = N.NegInt v → v < 0) ∧
    (∀ f : F64, ∀ v : Int, (Number.from_float f).n = N.NegInt v → v < 0) ∧
    (∀ i : Int, ∀ num : Number, NumberVisitor.visit_i64 i = Except.ok num →
      ∀ v : Int, num.n = N.NegInt v → v < 0) ∧
    (∀ u : Nat, ∀ num : Number, NumberVisitor.visit_u64 u = Except.ok num →
      ∀ v : Int, num.n = N.NegInt v → v < 0) ∧
    (∀ f : F64, ∀ num : Number, NumberVisitor.visit_f64 f = Except.ok num →
      ∀ v : Int, num.n = N.NegInt v → v < 0) := by
  have hsigned : ∀ i : Int, ∀ v : Int, (Number.from_signed i).n = N.NegInt v → v < 0 := by
    intro i v h
    unfold Number.from_signed at h
    by_cases hi : i < 0
    · rw [if_pos hi] at h
      cases h
      exact hi
    · rw [if_neg hi] at h
      cases h
  have hunsigned : ∀ u : Nat, ∀ v : Int, (Number.from_unsigned u).n = N.NegInt v → v < 0 := by
    intro u v h
    cases h
  have hfloat : ∀ f : F64, ∀ v : Int, (Number.from_float f).n = N.NegInt v → v < 0 := by
    intro f v h
    cases h
  refine ⟨hsigned, hunsigned, hfloat, ?_, ?_, ?_⟩
  · intro i num h
    cases h
    exact hsigned i
  · intro u num h
    cases h
    exact hunsigned u
  · intro f num h
    cases h
    exact hfloat f

/-- Witness for the NegInt invariant at a concrete negative input. -/
theorem negint_always_negative_witness : (-64 : Int) < 0 :=
  negint_always_negative.1 (-64) (-64) (by decide)

/-- C4: constructing from a native value and extracting via the
matching-typed accessor round-trips over the full native range, and the
boundary value 9223372036854775817 (i64 MAX plus 10) constructs as PosInt
with is_i64 false, is_u64 true, as_i64 none and as_u64 some of the exact
value; u64 MAX likewise round-trips through as_u64 while as_i64 is none. -/
theorem construct_extract_round_trip :
    (∀ u : Nat, u < 2 ^ 64 → (Number.from_unsigned u).as_u64 = some u) ∧
    (∀ i : Int, -(2 ^ 63) ≤ i → i < 2 ^ 63 → (Number.from_signed i).as_i64 = some i) ∧
    (∀ f : F64, (Number.from_float f).as_f64 = some f) ∧
    ((Number.from_unsigned (2 ^ 64 - 1)).as_u64 = some (2 ^ 64 - 1) ∧
      (Number.from_unsigned (2 ^ 64 - 1)).as_i64 = none) ∧
    ((Number.from_unsigned 9223372036854775817).n = N.PosInt 9223372036854775817 ∧
      (Number.from_unsigned 9223372036854775817).is_i64 = false ∧
      (Number.from_unsigned 9223372036854775817).is_u64 = true ∧
      (Number.from_unsigned 9223372036854775817).as_i64 = none ∧
      (Number.from_unsigned 9223372036854775817).as_u64 = some 9223372036854775817) := by
  refine ⟨fun u _ => rfl, ?_, fun f => rfl, ⟨rfl, by decide⟩, rfl, by decide, rfl, by decide, rfl⟩
  intro i hlo hhi
  unfold Number.from_signed
  by_cases hi : i < 0
  · rw [if_pos hi]
    rfl
  · rw [if_neg hi]
    have hpos : 0 ≤ i := not_lt.mp hi
    show numcast_u64_to_i64 i.toNat = some i
    unfold numcast_u64_to_i64
    have hb : i.toNat ≤ I64_MAX_AS_U64 := by
      unfold I64_MAX_AS_U64
      omega
    rw [if_pos hb, Int.toNat_of_nonneg hpos]

/-- Witness for the round-trip at concrete full-range inputs. -/
theorem construct_extract_round_trip_witness :
    (Number.from_unsigned (2 ^ 64 - 1)).as_u64 = some (2 ^ 64 - 1) ∧
    (Number.from_signed (-(2 ^ 63))).as_i64 = some (-(2 ^ 63)) :=
  ⟨construct_extract_round_trip.1 (2 ^ 64 - 1) (by norm_num),
   construct_extract_round_trip.2.1 (-(2 ^ 63)) (by norm_num) (by norm_num)⟩

/-- C5: as_f64 is total over some: for every Number of any variant the
result is non-empty — integer payloads are cast to f64 (the cast always
succeeds; precision loss above 2 to the 53 is accepted) and Float payloads
are returned unchanged. -/
theorem as_f64_never_none (num : Number) :
    num.as_f64.isSome = true ∧
    (∀ v : Nat, num.n = N.PosInt v → num.as_f64 = some (F64.finite (v : ℚ))) ∧
    (∀ v : Int, num.n = N.NegInt v → num.as_f64 = some (F64.finite (v : ℚ))) ∧
    (∀ f : F64, num.n = N.Float f → num.as_f64 = some f) := by
  obtain ⟨nn⟩ := num
  refine ⟨?_, ?_, ?_, ?_⟩
  · cases nn <;> rfl
  · rintro v rfl
    rfl
  · rintro v rfl
    rfl
  · rintro f rfl
    rfl

/-- Witness for as_f64 totality at concrete inputs of each variant. -/
theorem as_f64_never_none_witness :
    (Number.mk (N.PosInt 18446744073709551615)).as_f64 = some (F64.finite 18446744073709551615) ∧
    (Number.mk (N.NegInt (-64))).as_f64 = some (F64.finite (-64)) ∧
    (Number.mk (N.Float F64.nan)).as_f64 = some F64.nan ∧
    (Number.mk (N.Float (F64.inf true))).as_f64 = some (F64.inf true) := by
  refine ⟨?_, ?_, ?_, ?_⟩
  · have h := (as_f64_never_none ⟨N.PosInt 18446744073709551615⟩).2.1 18446744073709551615 rfl
    simpa using h
  · have h := (as_f64_never_none ⟨N.NegInt (-64)⟩).2.2.1 (-64) rfl
    simpa using h
  · exact (as_f64_never_none ⟨N.Float F64.nan⟩).2.2.2 F64.nan rfl
  · exact (as_f64_never_none ⟨N.Float (F64.inf true)⟩).2.2.2 (F64.inf true) rfl

/-- C6: Display rendering — a Float NaN renders as the exact token .nan; an
infinite Float renders as .inf or -.inf according to the IEEE sign bit; a
PosInt renders as base-10 digits only (hence no separators and no sign)
with no leading zero and reading back to the stored value; a NegInt (always
negative) renders as a leading minus sign followed by such digits for the
absolute value. -/
theorem display_rendering (num : Number) :
    (num.n = N.Float F64.nan → num.display = ['.', 'n', 'a', 'n']) ∧
    (num.n = N.Float (F64.inf false) → num.display = ['.', 'i', 'n', 'f']) ∧
    (num.n = N.Float (F64.inf true) → num.display = ['-', '.', 'i', 'n', 'f']) ∧
    (∀ v : Nat, num.n = N.PosInt v →
      (∀ c ∈ num.display, c.isDigit = true) ∧ num.display ≠ [] ∧
      (v ≠ 0 → num.display.head? ≠ some '0') ∧ charsToNat num.display = v) ∧
    (∀ v : Int, num.n = N.NegInt v → v < 0 →
      ∃ l, num.display = '-' :: l ∧ (∀ c ∈ l, c.isDigit = true) ∧ l ≠ [] ∧
        l.head? ≠ some '0' ∧ charsToNat l = v.natAbs) := by
  obtain ⟨nn⟩ := num
  refine ⟨?_, ?_, ?_, ?_, ?_⟩
  · rintro rfl
    rfl
  · rintro rfl
    rfl
  · rintro rfl
    rfl
  · rintro v rfl
    exact ⟨renderNat_all_digits v, renderNat_ne_nil v,
      fun hv => renderNat_head_ne_zero hv, charsToNat_renderNat v⟩
  · rintro v rfl hneg
    refine ⟨renderNat v.natAbs, ?_, renderNat_all_digits _, renderNat_ne_nil _, ?_, charsToNat_renderNat _⟩
    · show renderInt v = _
      unfold renderInt
      rw [if_pos hneg]
    · exact renderNat_head_ne_zero (by omega)

/-- Witness for Display rendering at concrete inputs of each shape. -/
theorem display_rendering_witness :
    (Number.mk (N.Float F64.nan)).display = ['.', 'n', 'a', 'n'] ∧
    (Number.mk (N.Float (F64.inf true))).display = ['-', '.', 'i', 'n', 'f'] ∧
    charsToNat (Number.mk (N.PosInt 256)).display = 256 :=
  ⟨(display_rendering ⟨N.Float F64.nan⟩).1 rfl,
   (display_rendering ⟨N.Float (F64.inf true)⟩).2.2.1 rfl,
   ((display_rendering ⟨N.PosInt 256⟩).2.2.2.1 256 rfl).2.2.2⟩

/-- C7 counterexample: the Number constructed from the float 256.0 displays
as exactly the three digit characters 256 — every character is a digit, so
no fractional marker follows, and the rendering coincides with that of the
integer 256, contrary to the claim that a fractional marker makes the
integral-valued Float textually distinguishable. -/
theorem float_256_displays_bare_counterexample :
    (Number.from_float (F64.finite 256)).display = ['2', '5', '6'] ∧
    (∀ c ∈ (Number.from_float (F64.finite 256)).display, c.isDigit = true) := by
  have h : (Number.from_float (F64.finite 256)).display = ['2', '5', '6'] := by
    show renderFiniteF64 256 = _
    unfold renderFiniteF64
    rw [if_pos (by decide)]
    show renderInt (256 : ℚ).num = _
    rw [show (256 : ℚ).num = 256 from by decide]
    unfold renderInt
    rw [if_neg (by decide)]
    unfold renderNat
    rw [if_neg (by decide), show ((256 : Int).toNat = 256) from rfl,
      show Nat.digits 10 256 = [6, 5, 2] from by norm_num]
    decide
  exact ⟨h, by rw [h]; decide⟩

/-- C7 amended: the Number constructed from the float 256.0 displays as the
digits 256 with no fractional marker, per the host float-rendering
convention (which emits the shortest round-trippable form, with no
fractional part for an integral value); its rendering is therefore
identical to that of the Number constructed from the integer 256, so an
integral-valued Float is not textually distinguishable from the integer of
the same value by Display alone. -/
theorem float_256_displays_as_integer :
    (Number.from_float (F64.finite 256)).display = (Number.from_unsigned 256).display ∧
    (Number.from_unsigned 256).display = ['2', '5', '6'] := by
  have hu : (Number.from_unsigned 256).display = ['2', '5', '6'] := by
    show renderNat 256 = _
    unfold renderNat
    rw [if_neg (by decide), show Nat.digits 10 256 = [6, 5, 2] from by norm_num]
    decide
  have hf : (Number.from_float (F64.finite 256)).display = ['2', '5', '6'] := by
    show renderFiniteF64 256 = _
    unfold renderFiniteF64
    rw [if_pos (by decide)]
    show renderInt (256 : ℚ).num = _
    rw [show (256 : ℚ).num = 256 from by decide]
    unfold renderInt
    rw [if_neg (by decide)]
    unfold renderNat
    rw [if_neg (by decide), show ((256 : Int).toNat = 256) from rfl,
      show Nat.digits 10 256 = [6, 5, 2] from by norm_num]
    decide
  exact ⟨hf.trans hu.symm, hu⟩

/-- Predicate written from the spec sentence as amended: the two values
have the same active variant, integer payloads equal numerically, and
float payloads equal under IEEE comparison (so NaN payloads never satisfy
it, even against themselves). -/
def sameVariantIeeePayload : N → N → Prop
  | .PosInt a, .PosInt b => a = b
  | .NegInt a, .NegInt b => a = b
  | .Float (.finite q), .Float (.finite r) => q = r
  | .Float (.inf s), .Float (.inf t) => s = t
  | _, _ => False

/-- C8 counterexample: two Numbers that are identical — same active variant
Float and bit-for-bit the same NaN payload — compare unequal under the
derived equality, refuting equality being "iff same active variant and
bit-equivalent payload" at this input. -/
theorem nan_self_equality_counterexample :
    Number.mk (N.Float F64.nan) = Number.mk (N.Float F64.nan) ∧
    Number.beq ⟨N.Float F64.nan⟩ ⟨N.Float F64.nan⟩ = false :=
  ⟨rfl, rfl⟩

/-- C8 amended: the derived equality on Number is structural on the variant
with payloads compared by the payload type's own equality — numeric for the
integer variants and IEEE for Float — so two Numbers compare equal iff they
have the same active variant and IEEE-equal payloads; in particular a Float
holding NaN compares unequal to itself. -/
theorem derived_equality_structural_ieee :
    (∀ a b : Number, Number.beq a b = true ↔ sameVariantIeeePayload a.n b.n) ∧
    Number.beq ⟨N.Float F64.nan⟩ ⟨N.Float F64.nan⟩ = false := by
  refine ⟨?_, rfl⟩
  rintro ⟨na⟩ ⟨nb⟩
  show N.beq na nb = true ↔ sameVariantIeeePayload na nb
  cases na with
  | PosInt a =>
    cases nb <;> simp [N.beq, sameVariantIeeePayload]
  | NegInt a =>
    cases nb <;> simp [N.beq, sameVariantIeeePayload]
  | Float x =>
    cases nb with
    | PosInt b => simp [N.beq, sameVariantIeeePayload]
    | NegInt b => simp [N.beq, sameVariantIeeePayload]
    | Float y =>
      cases x <;> cases y <;>
        simp [N.beq, F64.ieee_eq, sameVariantIeeePayload]

/-- C9: the serialization bridge dispatches exactly per variant in both
value-emitting directions.  Outbound, the Serialize impl performs exactly
one primitive call on the serializer — recorded by the instrumenting
serializer and replayable against any serializer — and that call is
serialize_u64 with the payload for PosInt, serialize_i64 for NegInt,
serialize_f64 for Float.  As a self-describing source, deserialize_any
performs exactly one visit call — visit_u64 / visit_i64 / visit_f64 with
the unchanged payload — and returns the visitor's own result, so it fails
exactly when the target itself fails. -/
theorem serialization_bridge_dispatch :
    (∀ (R : Type) (s : Serializer R) (num : Number),
      num.serialize s = (num.serialize recordingSerializer).replay s) ∧
    (∀ (num : Number) (v : Nat), num.n = N.PosInt v →
      num.serialize recordingSerializer = SerializerCall.serialize_u64 v) ∧
    (∀ (num : Number) (v : Int), num.n = N.NegInt v →
      num.serialize recordingSerializer = SerializerCall.serialize_i64 v) ∧
    (∀ (num : Number) (f : F64), num.n = N.Float f →
      num.serialize recordingSerializer = SerializerCall.serialize_f64 f) ∧
    (∀ (R : Type) (vis : Visitor R) (num : Number),
      ∃ c : VisitorCall, num.deserialize_any recordingVisitor = Except.ok c ∧
        num.deserialize_any vis = c.replay vis) ∧
    (∀ (num : Number) (v : Nat), num.n = N.PosInt v →
      num.deserialize_any recordingVisitor = Except.ok (VisitorCall.visit_u64 v)) ∧
    (∀ (num : Number) (v : Int), num.n = N.NegInt v →
      num.deserialize_any recordingVisitor = Except.ok (VisitorCall.visit_i64 v)) ∧
    (∀ (num : Number) (f : F64), num.n = N.Float f →
      num.deserialize_any recordingVisitor = Except.ok (VisitorCall.visit_f64 f)) := by
  refine ⟨?_, ?_, ?_, ?_, ?_, ?_, ?_, ?_⟩
  · rintro R s ⟨nn⟩
    cases nn <;> rfl
  · rintro ⟨nn⟩ v rfl
    rfl
  · rintro ⟨nn⟩ v rfl
    rfl
  · rintro ⟨nn⟩ f rfl
    rfl
  · rintro R vis ⟨nn⟩
    cases nn with
    | PosInt v => exact ⟨.visit_u64 v, rfl, rfl⟩
    | NegInt v => exact ⟨.visit_i64 v, rfl, rfl⟩
    | Float f => exact ⟨.visit_f64 f, rfl, rfl⟩
  · rintro ⟨nn⟩ v rfl
    rfl
  · rintro ⟨nn⟩ v rfl
    rfl
  · rintro ⟨nn⟩ f rfl
    rfl

/-- Witness for the bridge dispatch at concrete inputs of each variant. -/
theorem serialization_bridge_dispatch_witness :
    (Number.mk (N.PosInt 64)).serialize recordingSerializer
        = SerializerCall.serialize_u64 64 ∧
    (Number.mk (N.NegInt (-64))).serialize recordingSerializer
        = SerializerCall.serialize_i64 (-64) ∧
    (Number.mk (N.Float F64.nan)).deserialize_any recordingVisitor
        = Except.ok (VisitorCall.visit_f64 F64.nan) :=
  ⟨serialization_bridge_dispatch.2.1 ⟨N.PosInt 64⟩ 64 rfl,
   serialization_bridge_dispatch.2.2.1 ⟨N.NegInt (-64)⟩ (-64) rfl,
   serialization_bridge_dispatch.2.2.2.2.2.2.2 ⟨N.Float F64.nan⟩ F64.nan rfl⟩

/-- C10: the by-value and by-reference Deserializer impls for Number are
equivalent — deserialize_any performs the identical dispatch and returns
the same result for every Number and every visitor — and in both impls
every other deserialize method is generated by forward_to_deserialize_any!
and therefore returns exactly deserialize_any's result. -/
theorem by_ref_deserializer_equivalent :
    (∀ (R : Type) (num : Number) (vis : Visitor R),
      Number.deserialize_any_ref num vis = Number.deserialize_any num vis) ∧
    (∀ (R : Type) (m : ForwardedMethod) (num : Number) (vis : Visitor R),
      Number.deserialize_forwarded m num vis = Number.deserialize_any num vis ∧
      Number.deserialize_forwarded_ref m num vis = Number.deserialize_any_ref num vis) := by
  constructor
  · rintro R ⟨nn⟩ vis
    cases nn <;> rfl
  · intro R m num vis
    exact ⟨rfl, rfl⟩

/-- Witness for the structural-IEEE equality characterization at a
concrete input. -/
theorem derived_equality_structural_ieee_witness :
    sameVariantIeeePayload (N.PosInt 64) (N.PosInt 64) :=
  (derived_equality_structural_ieee.1 ⟨N.PosInt 64⟩ ⟨N.PosInt 64⟩).mp (by decide)
